import Mathlib

/-!
Verification of the MemoryVault core against its specification.

The development shallowly embeds the wallet-custody code
(`CryptoManager.kt`), the chain-state reader (`AptosClient.kt`) and the
challenge-message builder (`WalletContext.tsx`).  Machine words are
modelled as `Nat` reduced modulo the word size where overflow matters;
byte strings are `List Nat` with each element a byte value.  External
library primitives that the repository only calls (BIP-39 seed
derivation, Ed25519 key expansion, the AES block cipher) are parameters
of the embedding; every algorithm that determines the claims (Keccak /
SHA3-256, the GCM mode of operation, hex codecs, JSON field access) is
implemented concretely.
-/

set_option maxRecDepth 16384

namespace MemoryVault

/-! ## Keccak-f[1600] and SHA3-256

`deriveAptosAddress` in `CryptoManager.kt` calls
`MessageDigest.getInstance("SHA3-256")`; the digest is embedded here as
the FIPS 202 sponge over Keccak-f[1600].  The state is a list of 25
lanes, the lane for coordinates `(x, y)` stored at index `x + 5*y`;
every lane is a 64-bit word held as a `Nat` below `2^64`. -/

/-- Keccak state: 25 lanes, 64-bit words. -/
def KState : Type := List Nat

/-- Lane lookup (0 outside the 25 lanes, unused). -/
def lane (st : KState) (i : Nat) : Nat := st.getD i 0

/-- Rotate a 64-bit lane left by `n` bits (0 ≤ n < 64). -/
def rotl64 (x n : Nat) : Nat :=
  ((x <<< n) % (2 ^ 64)) ||| (x >>> (64 - n))

/-- The (x, y) walk generating the ρ offsets (FIPS 202 §3.2.2): start at
(1, 0) and step by (x, y) ↦ (y, (2x + 3y) mod 5). -/
def rhoWalk : Nat → Nat × Nat
  | 0 => (1, 0)
  | t + 1 => ((rhoWalk t).2, (2 * (rhoWalk t).1 + 3 * (rhoWalk t).2) % 5)

/-- ρ-step rotation amount for the lane at index `x + 5*y`: the lane visited
at step `t` of the walk rotates by the triangular number (t+1)(t+2)/2 mod 64
(lane 0 does not rotate). -/
def rhoOffsets : List (Nat × Nat) :=
  (List.range 24).map
    (fun t => ((rhoWalk t).1 + 5 * (rhoWalk t).2, (t + 1) * (t + 2) / 2 % 64))

/-- Rotation offset lookup for lane index `i`. -/
def rhoOffset (i : Nat) : Nat := ((rhoOffsets.lookup i).getD 0)

/-- π-step destination of lane `i = x + 5*y`: lane `y + 5*((2x+3y) mod 5)`. -/
def piIndex (i : Nat) : Nat :=
  (i / 5) + 5 * ((2 * (i % 5) + 3 * (i / 5)) % 5)

/-- The degree-8 LFSR of FIPS 202 Algorithm 5 (`rc`), one step: shift left
and, on overflow, reduce by the feedback polynomial `0x71`. -/
def rcStep (r : Nat) : Nat :=
  if r * 2 < 256 then r * 2 else (r * 2) % 256 ^^^ 0x71

/-- LFSR state before the `t`-th output bit; the output bit is its bit 0. -/
def rcState : Nat → Nat
  | 0 => 1
  | t + 1 => rcStep (rcState t)

/-- Round constant of round `ir`: output bits `7*ir + j` of the LFSR land at
bit positions `2^j - 1` of the lane, `j = 0, …, 6`. -/
def roundConstant (ir : Nat) : Nat :=
  (List.range 7).foldl
    (fun acc j => acc + (rcState (j + 7 * ir) % 2) * 2 ^ (2 ^ j - 1)) 0

/-- Keccak-f[1600] round constants for the ι step. -/
def roundConstants : List Nat := (List.range 24).map roundConstant

/-- One Keccak-f[1600] round: θ, ρ, π, χ, ι. -/
def keccakRound (st : KState) (rc : Nat) : KState :=
  let C : List Nat := (List.range 5).map (fun x =>
    lane st x ^^^ lane st (x + 5) ^^^ lane st (x + 10) ^^^
    lane st (x + 15) ^^^ lane st (x + 20))
  let D : List Nat := (List.range 5).map (fun x =>
    C.getD ((x + 4) % 5) 0 ^^^ rotl64 (C.getD ((x + 1) % 5) 0) 1)
  let A1 : List Nat := (List.range 25).map (fun i => lane st i ^^^ D.getD (i % 5) 0)
  let B : List Nat := (List.range 25).foldl
    (fun acc i => acc.set (piIndex i) (rotl64 (A1.getD i 0) (rhoOffset i)))
    (List.replicate 25 0)
  let A2 : List Nat := (List.range 25).map (fun i =>
    B.getD i 0 ^^^ ((((2 ^ 64) - 1) ^^^ B.getD ((i % 5 + 1) % 5 + 5 * (i / 5)) 0)
                     &&& B.getD ((i % 5 + 2) % 5 + 5 * (i / 5)) 0))
  A2.set 0 (A2.getD 0 0 ^^^ rc)

/-- The full 24-round Keccak-f[1600] permutation. -/
def keccakF (st : KState) : KState :=
  roundConstants.foldl keccakRound st

/-- XOR one 136-byte rate block into the state, little-endian within each lane. -/
def absorbBlock (st : KState) (block : List Nat) : KState :=
  (List.range 25).map (fun j =>
    if j < 17 then
      lane st j ^^^ (List.range 8).foldl
        (fun acc k => acc ^^^ (((block.getD (8 * j + k) 0) % 256) <<< (8 * k))) 0
    else lane st j)

/-- SHA3-256 of a byte string: multi-rate padding with domain byte `0x06`,
absorption at rate 136, and a 32-byte squeeze. -/
def sha3_256 (msg : List Nat) : List Nat :=
  let rate := 136
  let padLen := rate - msg.length % rate
  let padded := msg ++
    (if padLen = 1 then [0x86]
     else 0x06 :: (List.replicate (padLen - 2) 0 ++ [0x80]))
  let finalSt := (List.range (padded.length / rate)).foldl
    (fun st b => keccakF (absorbBlock st (padded.drop (b * rate))))
    (List.replicate 25 0)
  (List.range 32).map (fun i => (lane finalSt (i / 8) >>> (8 * (i % 8))) % 256)

/-! ## Address derivation (`CryptoManager.deriveAptosAddress`)

The Kotlin source appends a single `0x00` scheme byte to the public key,
hashes with SHA3-256, and renders each digest byte with `"%02x"` (two
lowercase hex digits of the unsigned byte), prefixing `"0x"`. -/

/-- The sixteen lowercase hexadecimal digit characters. -/
def hexDigitChars : List Char := "0123456789abcdef".data

/-- The lowercase hex digit for a value (`'0'` out of range, unused). -/
def hexDigit (n : Nat) : Char := hexDigitChars.getD n '0'

/-- `"%02x"` rendering of one unsigned byte. -/
def byteToHex (b : Nat) : List Char := [hexDigit (b / 16), hexDigit (b % 16)]

/-- Lowercase hex rendering of a byte string, byte by byte. -/
def bytesToHex (bs : List Nat) : List Char := (bs.map byteToHex).flatten

/-- `CryptoManager.deriveAptosAddress`: `"0x" + hex(sha3_256(publicKey ++ 0x00))`. -/
def deriveAptosAddress (publicKey : List Nat) : String :=
  "0x" ++ String.mk (bytesToHex (sha3_256 (publicKey ++ [0x00])))

/-! ### Facts about the hex rendering and the digest -/

theorem sha3_256_length (msg : List Nat) : (sha3_256 msg).length = 32 := by
  simp [sha3_256]

theorem bytesToHex_cons (b : Nat) (bs : List Nat) :
    bytesToHex (b :: bs) = byteToHex b ++ bytesToHex bs := rfl

theorem bytesToHex_length (bs : List Nat) : (bytesToHex bs).length = 2 * bs.length := by
  induction bs with
  | nil => rfl
  | cons b bs ih =>
      rw [bytesToHex_cons, List.length_append, ih, byteToHex]
      simp; omega

theorem hexDigit_mem (n : Nat) : hexDigit n ∈ hexDigitChars := by
  rcases Nat.lt_or_ge n 16 with h | h
  · unfold hexDigit
    interval_cases n <;> decide
  · have : hexDigitChars.length ≤ n := by simpa [hexDigitChars] using h
    unfold hexDigit
    rw [List.getD_eq_default _ _ this]
    decide

theorem mem_bytesToHex {c : Char} {bs : List Nat} (h : c ∈ bytesToHex bs) :
    c ∈ hexDigitChars := by
  unfold bytesToHex at h
  rcases List.mem_flatten.mp h with ⟨l, hl, hc⟩
  rcases List.mem_map.mp hl with ⟨b, _, rfl⟩
  rcases hc with _ | ⟨_, hc⟩
  · exact hexDigit_mem _
  · rcases hc with _ | ⟨_, hc⟩
    · exact hexDigit_mem _
    · cases hc

theorem deriveAptosAddress_data (pk : List Nat) :
    (deriveAptosAddress pk).data = '0' :: 'x' :: bytesToHex (sha3_256 (pk ++ [0x00])) := rfl

/-- C1: for every public-key byte string `pk`, the derived wallet address is
`"0x"` followed by the lowercase hex encoding of `SHA3-256(pk ++ 0x00)`, hence
always `"0x"` followed by exactly 64 lowercase hex characters. -/
theorem C1_address_derivation (pk : List Nat) :
    deriveAptosAddress pk = "0x" ++ String.mk (bytesToHex (sha3_256 (pk ++ [0x00]))) ∧
    (deriveAptosAddress pk).length = 66 ∧
    (deriveAptosAddress pk).data.take 2 = ['0', 'x'] ∧
    ((deriveAptosAddress pk).data.drop 2).length = 64 ∧
    ∀ c ∈ (deriveAptosAddress pk).data.drop 2, c ∈ hexDigitChars := by
  refine ⟨rfl, ?_, ?_, ?_, ?_⟩
  · show (deriveAptosAddress pk).data.length = 66
    rw [deriveAptosAddress_data]
    simp [bytesToHex_length, sha3_256_length]
  · rw [deriveAptosAddress_data]; rfl
  · rw [deriveAptosAddress_data]
    simp [bytesToHex_length, sha3_256_length]
  · rw [deriveAptosAddress_data]
    intro c hc
    exact mem_bytesToHex (by simpa using hc)

/-- Witness for C1 at the concrete public key `[1, 2, 3]` (address
`0x9735…a0bd`), including one concrete character of its hex part. -/
theorem C1_address_derivation_witness :
    deriveAptosAddress [1, 2, 3] =
      "0x" ++ String.mk (bytesToHex (sha3_256 ([1, 2, 3] ++ [0x00]))) ∧
    (deriveAptosAddress [1, 2, 3]).length = 66 ∧
    (deriveAptosAddress [1, 2, 3]).data.take 2 = ['0', 'x'] ∧
    ((deriveAptosAddress [1, 2, 3]).data.drop 2).length = 64 ∧
    '9' ∈ hexDigitChars :=
  ⟨(C1_address_derivation [1, 2, 3]).1,
   (C1_address_derivation [1, 2, 3]).2.1,
   (C1_address_derivation [1, 2, 3]).2.2.1,
   (C1_address_derivation [1, 2, 3]).2.2.2.1,
   (C1_address_derivation [1, 2, 3]).2.2.2.2 '9' (by decide)⟩

/-! ## AES-256-GCM blob encryption (`CryptoManager.encryptData` / `decryptData`)

The Kotlin source uses `Cipher.getInstance("AES/GCM/NoPadding")` with the
stored 256-bit envelope key, a fresh IV chosen by the cipher on
encryption, and a 128-bit tag (`GCMParameterSpec(128, iv)`); `doFinal`
appends the tag to the ciphertext on encryption and throws
`AEADBadTagException` on a tag mismatch during decryption.  The GCM mode
of operation (NIST SP 800-38D: CTR keystream, GHASH over GF(2^128),
tag = GHASH ⊕ E_K(J0)) is embedded concretely below; the AES-256 block
cipher itself is an external library primitive and is a parameter
`aes : Nat → Nat → Nat` (key, then 128-bit block, output reduced mod
`2^128`). -/

/-- Big-endian byte string to natural number. -/
def bytesToNatBE (bs : List Nat) : Nat := bs.foldl (fun a b => a * 256 + b % 256) 0

/-- `len` big-endian bytes of a natural number. -/
def natToBytesBE (n len : Nat) : List Nat :=
  (List.range len).map (fun i => (n >>> (8 * (len - 1 - i))) % 256)

/-- One step of the GF(2^128) multiply: conditional accumulate, then shift `V`
right with conditional reduction by `R = 0xe1 ∥ 0^120`. -/
def gmulStep (zv : Nat × Nat) (bit : Bool) : Nat × Nat :=
  let z := if bit then zv.1 ^^^ zv.2 else zv.1
  let v := if zv.2 % 2 = 1 then (zv.2 >>> 1) ^^^ 0xe1000000000000000000000000000000
           else zv.2 >>> 1
  (z, v)

/-- GHASH multiplication in GF(2^128) (SP 800-38D, bit 0 most significant). -/
def gmul (x y : Nat) : Nat :=
  ((List.range 128).foldl (fun zv i => gmulStep zv (y.testBit (127 - i))) (0, x)).1

/-- GHASH compression of a list of 128-bit blocks under hash subkey `h`. -/
def ghash (h : Nat) (blocks : List Nat) : Nat :=
  blocks.foldl (fun y b => gmul (y ^^^ b) h) 0

/-- Zero-pad a partial block to 16 bytes. -/
def padTo16 (bs : List Nat) : List Nat := bs ++ List.replicate (16 - bs.length) 0

/-- Split a byte string into zero-padded 128-bit blocks. -/
def toBlocks (l : List Nat) : List Nat :=
  (List.range ((l.length + 15) / 16)).map
    (fun i => bytesToNatBE (padTo16 ((l.drop (16 * i)).take 16)))

/-- Pre-counter block for a 96-bit IV: `J0 = IV ∥ 0^31 ∥ 1`. -/
def gcmJ0 (iv : List Nat) : Nat := bytesToNatBE iv * 2 ^ 32 + 1

/-- The `i`-th counter block: `inc32` applied `i` times to `J0`. -/
def ctrBlock (j0 i : Nat) : Nat :=
  ((j0 >>> 32) <<< 32) + ((j0 % 2 ^ 32 + i) % 2 ^ 32)

/-- First `n` bytes of the CTR keystream (counters start at `inc32(J0)`). -/
def keystream (ek : Nat → Nat) (j0 n : Nat) : List Nat :=
  (((List.range ((n + 15) / 16)).map
      (fun i => natToBytesBE (ek (ctrBlock j0 (i + 1)) % 2 ^ 128) 16)).flatten).take n

/-- Pointwise XOR of byte strings (truncating to the shorter). -/
def xorBytes (a b : List Nat) : List Nat := List.zipWith (fun x y => x ^^^ y) a b

/-- The 128-bit GCM authentication tag over the ciphertext (no AAD). -/
def gcmTag (ek : Nat → Nat) (iv ct : List Nat) : Nat :=
  let h := ek 0 % 2 ^ 128
  let s := ghash h (toBlocks ct ++ [(8 * ct.length) % 2 ^ 64])
  s ^^^ (ek (gcmJ0 iv) % 2 ^ 128)

/-- GCM encryption: ciphertext with the 16-byte tag appended (as `doFinal`). -/
def gcmEncrypt (ek : Nat → Nat) (iv pt : List Nat) : List Nat :=
  let ct := xorBytes pt (keystream ek (gcmJ0 iv) pt.length)
  ct ++ natToBytesBE (gcmTag ek iv ct) 16

/-- GCM decryption: recompute the tag over the received ciphertext and fail
(`none`, the `AEADBadTagException` path) unless it matches the trailing
16 bytes. -/
def gcmDecrypt (ek : Nat → Nat) (iv data : List Nat) : Option (List Nat) :=
  if data.length < 16 then none
  else
    let ct := data.take (data.length - 16)
    let tag := data.drop (data.length - 16)
    if natToBytesBE (gcmTag ek iv ct) 16 = tag then
      some (xorBytes ct (keystream ek (gcmJ0 iv) ct.length))
    else none

/-! ## The encrypted secret store (`EncryptedSharedPreferences` fields) -/

/-- The five fields `CryptoManager` keeps in its encrypted store. -/
structure VaultStore where
  privateKey : Option (List Nat)
  publicKey : Option (List Nat)
  address : Option String
  mnemonic : Option String
  envelopeKey : Option Nat
deriving DecidableEq

/-- `CryptoManager.EncryptedData`: IV and ciphertext-plus-tag (the source
Base64-encodes both; the Base64 codec is an external library bijection and
the fields are modelled as the underlying byte strings). -/
structure EncryptedData where
  iv : List Nat
  data : List Nat
deriving DecidableEq

/-- `CryptoManager.getEncryptionKey`: the stored envelope key, or — fallback —
a freshly generated key that is also written back to the store.  `freshKey`
models the `KeyGenerator` randomness. -/
def getEncryptionKey (st : VaultStore) (freshKey : Nat) : Nat × VaultStore :=
  match st.envelopeKey with
  | some k => (k, st)
  | none => (freshKey, { st with envelopeKey := some freshKey })

/-- `CryptoManager.encryptData`: AES-256-GCM under the envelope key with a
fresh IV (`iv` models the cipher-chosen IV, `freshKey` the fallback-key
randomness). -/
def encryptData (aes : Nat → Nat → Nat) (st : VaultStore) (freshKey : Nat)
    (iv pt : List Nat) : VaultStore × EncryptedData :=
  let kst := getEncryptionKey st freshKey
  (kst.2, ⟨iv, gcmEncrypt (aes kst.1) iv pt⟩)

/-- `CryptoManager.decryptData`: AES-256-GCM decryption under the envelope
key; `none` is the `AEADBadTagException` failure. -/
def decryptData (aes : Nat → Nat → Nat) (st : VaultStore) (freshKey : Nat)
    (blob : EncryptedData) : VaultStore × Option (List Nat) :=
  let kst := getEncryptionKey st freshKey
  (kst.2, gcmDecrypt (aes kst.1) blob.iv blob.data)

/-! ### The encrypt/decrypt round trip -/

theorem natToBytesBE_length (n len : Nat) : (natToBytesBE n len).length = len := by
  simp [natToBytesBE]

theorem flatten_length_of_forall {α β : Type} (l : List α) (f : α → List β) (k : Nat)
    (h : ∀ x ∈ l, (f x).length = k) : ((l.map f).flatten).length = k * l.length := by
  induction l with
  | nil => simp
  | cons a l ih =>
      simp only [List.map_cons, List.flatten_cons, List.length_append, List.length_cons]
      rw [h a (List.mem_cons_self a l), ih (fun x hx => h x (List.mem_cons_of_mem a hx))]
      ring

theorem keystream_length (ek : Nat → Nat) (j0 n : Nat) :
    (keystream ek j0 n).length = n := by
  unfold keystream
  rw [List.length_take]
  rw [flatten_length_of_forall _ _ 16 (fun x _ => natToBytesBE_length _ 16)]
  simp only [List.length_range]
  have hdm := Nat.div_add_mod (n + 15) 16
  have hlt : (n + 15) % 16 < 16 := Nat.mod_lt _ (by omega)
  omega

theorem xorBytes_length (a b : List Nat) :
    (xorBytes a b).length = min a.length b.length := by
  simp [xorBytes]

theorem xorBytes_cancel (pt : List Nat) :
    ∀ ks : List Nat, pt.length ≤ ks.length → xorBytes (xorBytes pt ks) ks = pt := by
  induction pt with
  | nil => intro ks _; rfl
  | cons p pt ih =>
      intro ks hks
      cases ks with
      | nil => simp at hks
      | cons k ks =>
          simp only [List.length_cons] at hks
          simp only [xorBytes, List.zipWith_cons_cons] at *
          refine congrArg₂ List.cons ?_ (ih ks (by omega))
          rw [Nat.xor_assoc, Nat.xor_self, Nat.xor_zero]

theorem gcmDecrypt_gcmEncrypt (ek : Nat → Nat) (iv pt : List Nat) :
    gcmDecrypt ek iv (gcmEncrypt ek iv pt) = some pt := by
  unfold gcmEncrypt gcmDecrypt
  have hks := keystream_length ek (gcmJ0 iv) pt.length
  have hct : (xorBytes pt (keystream ek (gcmJ0 iv) pt.length)).length = pt.length := by
    rw [xorBytes_length, hks]; omega
  have htag := natToBytesBE_length (gcmTag ek iv (xorBytes pt (keystream ek (gcmJ0 iv) pt.length))) 16
  set ct := xorBytes pt (keystream ek (gcmJ0 iv) pt.length) with hctdef
  set tg := natToBytesBE (gcmTag ek iv ct) 16 with htgdef
  have hlen : (ct ++ tg).length = pt.length + 16 := by
    rw [List.length_append, hct, htag]
  rw [hlen]
  have hnot : ¬ (pt.length + 16 < 16) := by omega
  simp only [hnot, if_false]
  have hsub : pt.length + 16 - 16 = ct.length := by omega
  rw [hsub, List.take_left, List.drop_left]
  simp only [if_pos rfl]
  rw [hct, hctdef]
  rw [xorBytes_cancel pt _ (by rw [hks])]
  simp

/-- C2: decrypting the blob produced by encrypting `x`, with the stored
envelope key unchanged between the two calls, returns exactly `x` — for any
AES block-cipher instantiation, any prior store, any fallback-key randomness
and any IV. -/
theorem C2_decrypt_encrypt_roundtrip (aes : Nat → Nat → Nat) (st st2 : VaultStore)
    (rk rk2 : Nat) (iv pt : List Nat)
    (hkey : st2.envelopeKey = ((encryptData aes st rk iv pt).1).envelopeKey) :
    (decryptData aes st2 rk2 (encryptData aes st rk iv pt).2).2 = some pt := by
  unfold encryptData at *
  unfold decryptData
  cases hst : st.envelopeKey with
  | some k =>
      simp only [getEncryptionKey, hst] at hkey ⊢
      simp only [getEncryptionKey, hkey]
      exact gcmDecrypt_gcmEncrypt _ _ _
  | none =>
      simp only [getEncryptionKey, hst] at hkey ⊢
      simp only [getEncryptionKey, hkey]
      exact gcmDecrypt_gcmEncrypt _ _ _

/-- Witness for C2 at a concrete cipher, store, key, IV and plaintext. -/
theorem C2_decrypt_encrypt_roundtrip_witness :
    (⟨none, none, none, none, some 7⟩ : VaultStore).envelopeKey =
      ((encryptData (fun k b => k + b) ⟨none, none, none, none, some 7⟩ 5
          (List.replicate 12 2) [10, 20, 30]).1).envelopeKey ∧
    (decryptData (fun k b => k + b) ⟨none, none, none, none, some 7⟩ 9
        (encryptData (fun k b => k + b) ⟨none, none, none, none, some 7⟩ 5
          (List.replicate 12 2) [10, 20, 30]).2).2 = some [10, 20, 30] :=
  ⟨rfl, C2_decrypt_encrypt_roundtrip (fun k b => k + b)
    ⟨none, none, none, none, some 7⟩ ⟨none, none, none, none, some 7⟩ 5 9
    (List.replicate 12 2) [10, 20, 30] rfl⟩

/-! ## Wallet import (`CryptoManager.importWalletFromMnemonic`)

The import path normalizes the raw phrase (`trim()`, `lowercase()`,
`replace(Regex("\\s+"), " ")`), checks the word count, and lets the
BIP-39 library validate the checksum while deriving the 512-bit seed
(`Mnemonics.MnemonicCode(...)` / `toSeed()`); any failure is caught and
surfaced as one invalid-mnemonic error before anything is written.  On
success the first 32 seed bytes are the Ed25519 private key, the
BouncyCastle-derived public key yields the address, and all five store
fields are overwritten.  The BIP-39 and Ed25519 library primitives are
the `WalletLibs` parameters; whitespace and lowercasing are modelled at
the ASCII level (mnemonic words are ASCII). -/

/-- Whitespace as matched by the source's `trim()` / `Regex("\\s+")`:
space (code 32) and the control range tab … carriage return (codes 9–13,
covering `\t`, `\n`, vertical tab, form feed, `\r`). -/
def isWsChar (c : Char) : Bool :=
  c.toNat == 32 || (9 ≤ c.toNat && c.toNat ≤ 13)

/-- `trim()`: drop whitespace from both ends. -/
def trimChars (l : List Char) : List Char :=
  ((l.dropWhile isWsChar).reverse.dropWhile isWsChar).reverse

/-- `replace(Regex("\\s+"), " ")`: collapse every whitespace run to one space
(a run contributes one `' '` at its last character). -/
def collapseWs : List Char → List Char
  | [] => []
  | [c] => if isWsChar c then [' '] else [c]
  | c1 :: c2 :: rest =>
      if isWsChar c1 && isWsChar c2 then collapseWs (c2 :: rest)
      else (if isWsChar c1 then ' ' else c1) :: collapseWs (c2 :: rest)

/-- The full normalization: `raw.trim().lowercase().replace(Regex("\\s+"), " ")`. -/
def normalizeMnemonic (raw : String) : String :=
  String.mk (collapseWs ((trimChars raw.data).map Char.toLower))

/-- `split(" ")`: split at every single space, preserving empty segments. -/
def splitOnSpace : List Char → List (List Char)
  | [] => [[]]
  | c :: rest =>
      if c = ' ' then [] :: splitOnSpace rest
      else match splitOnSpace rest with
        | [] => [[c]]
        | w :: ws => (c :: w) :: ws

/-- The word count of the normalized phrase. -/
def wordCount (raw : String) : Nat :=
  (splitOnSpace (normalizeMnemonic raw).data).length

/-- The library primitives the import path calls: BIP-39 seed derivation with
its checksum validation (`cash.z.ecc.android.bip39`) and Ed25519 public-key
expansion (BouncyCastle). -/
structure WalletLibs where
  toSeed : String → List Nat
  checksumValid : String → Bool
  edPublicKey : List Nat → List Nat

/-- The one error `importWalletFromMnemonic` surfaces (every internal failure
is caught and rethrown as "Invalid Recovery Phrase"). -/
inductive WalletError where
  | invalidMnemonic
deriving DecidableEq

/-- The Ed25519 private key: the first 32 bytes of the BIP-39 seed
(`seed.copyOf(32)`, whose BouncyCastle `encoded` form is the seed itself). -/
def walletPrivateKey (libs : WalletLibs) (clean : String) : List Nat :=
  (libs.toSeed clean).take 32

/-- The Ed25519 public key derived from the private-key seed. -/
def walletPublicKey (libs : WalletLibs) (clean : String) : List Nat :=
  libs.edPublicKey (walletPrivateKey libs clean)

/-- The store contents written by a successful import: all five fields, with a
freshly generated envelope key. -/
def importedStore (libs : WalletLibs) (clean : String) (freshKey : Nat) : VaultStore :=
  { privateKey := some (walletPrivateKey libs clean)
    publicKey := some (walletPublicKey libs clean)
    address := some (deriveAptosAddress (walletPublicKey libs clean))
    mnemonic := some clean
    envelopeKey := some freshKey }

/-- `CryptoManager.importWalletFromMnemonic`: normalize, check the word count,
let the BIP-39 library validate the checksum, then derive and store.  The
returned store is the store after the call (unchanged on failure); `freshKey`
models the `KeyGenerator` randomness for the new envelope key. -/
def importWalletFromMnemonic (libs : WalletLibs) (raw : String) (freshKey : Nat)
    (st : VaultStore) : VaultStore × Except WalletError String :=
  if wordCount raw ≠ 12 ∧ wordCount raw ≠ 24 then (st, .error .invalidMnemonic)
  else if libs.checksumValid (normalizeMnemonic raw) then
    (importedStore libs (normalizeMnemonic raw) freshKey,
     .ok (deriveAptosAddress (walletPublicKey libs (normalizeMnemonic raw))))
  else (st, .error .invalidMnemonic)

/-- C6: the import first normalizes, then fails with the invalid-mnemonic
error — leaving the store unmodified — whenever the normalized word count is
neither 12 nor 24 or the BIP-39 checksum does not validate; inputs passing
both checks proceed to derivation and storage. -/
theorem C6_import_validation (libs : WalletLibs) (raw : String) (freshKey : Nat)
    (st : VaultStore) :
    ((wordCount raw ≠ 12 ∧ wordCount raw ≠ 24) ∨
      libs.checksumValid (normalizeMnemonic raw) = false →
        importWalletFromMnemonic libs raw freshKey st = (st, .error .invalidMnemonic)) ∧
    ((wordCount raw = 12 ∨ wordCount raw = 24) ∧
      libs.checksumValid (normalizeMnemonic raw) = true →
        importWalletFromMnemonic libs raw freshKey st =
          (importedStore libs (normalizeMnemonic raw) freshKey,
           .ok (deriveAptosAddress (walletPublicKey libs (normalizeMnemonic raw))))) := by
  constructor
  · intro h
    unfold importWalletFromMnemonic
    rcases h with h | h
    · rw [if_pos h]
    · by_cases hw : wordCount raw ≠ 12 ∧ wordCount raw ≠ 24
      · rw [if_pos hw]
      · rw [if_neg hw, if_neg (by simp [h])]
  · intro h
    unfold importWalletFromMnemonic
    have hw : ¬ (wordCount raw ≠ 12 ∧ wordCount raw ≠ 24) := by
      rcases h.1 with h' | h' <;> simp [h']
    rw [if_neg hw, if_pos h.2]

/-- Witness for C6: a 3-word phrase (surrounding whitespace and case
normalized away) is rejected without touching the store, and a 12-word phrase
accepted by the checksum is derived and stored. -/
theorem C6_import_validation_witness :
    importWalletFromMnemonic ⟨fun _ => List.replicate 64 3, fun _ => true, fun s => s⟩
        "  ABANDON ability\n able " 5 ⟨none, none, none, none, none⟩ =
      (⟨none, none, none, none, none⟩, .error .invalidMnemonic) ∧
    importWalletFromMnemonic ⟨fun _ => List.replicate 64 3, fun _ => true, fun s => s⟩
        "a a a a a a a a a a a a" 5 ⟨none, none, none, none, none⟩ =
      (importedStore ⟨fun _ => List.replicate 64 3, fun _ => true, fun s => s⟩
          (normalizeMnemonic "a a a a a a a a a a a a") 5,
       .ok (deriveAptosAddress (walletPublicKey
          ⟨fun _ => List.replicate 64 3, fun _ => true, fun s => s⟩
          (normalizeMnemonic "a a a a a a a a a a a a")))) :=
  ⟨(C6_import_validation _ _ _ _).1 (Or.inl (by decide)),
   (C6_import_validation _ _ _ _).2 (by decide)⟩

/-- C5: two successful imports of the same phrase — from any prior stores and
any envelope-key randomness — return the same address and store the same
address and Ed25519 key pair. -/
theorem C5_import_deterministic (libs : WalletLibs) (raw : String)
    (r1 r2 : Nat) (st1 st2 st1' st2' : VaultStore) (a1 a2 : String)
    (h1 : importWalletFromMnemonic libs raw r1 st1 = (st1', .ok a1))
    (h2 : importWalletFromMnemonic libs raw r2 st2 = (st2', .ok a2)) :
    a1 = a2 ∧ st1'.address = st2'.address ∧
    st1'.privateKey = st2'.privateKey ∧ st1'.publicKey = st2'.publicKey := by
  unfold importWalletFromMnemonic at h1 h2
  split at h1
  · simp only [Prod.mk.injEq] at h1
    exact absurd h1.2 (by simp)
  · split at h1
    · split at h2
      · simp only [Prod.mk.injEq] at h2
        exact absurd h2.2 (by simp)
      · simp only [Prod.mk.injEq] at h1 h2
        obtain ⟨hst1, ha1⟩ := h1
        obtain ⟨hst2, ha2⟩ := h2
        cases ha1; cases ha2
        subst hst1; subst hst2
        simp [importedStore]
    · simp only [Prod.mk.injEq] at h1
      exact absurd h1.2 (by simp)

/-- Witness for C5: the same 12-word phrase imported twice, with different
randomness and different prior stores, yields identical address and keys. -/
theorem C5_import_deterministic_witness :
    deriveAptosAddress (walletPublicKey
        ⟨fun _ => List.replicate 64 3, fun _ => true, fun s => s⟩
        (normalizeMnemonic "a a a a a a a a a a a a")) =
      deriveAptosAddress (walletPublicKey
        ⟨fun _ => List.replicate 64 3, fun _ => true, fun s => s⟩
        (normalizeMnemonic "a a a a a a a a a a a a")) ∧
    (importedStore ⟨fun _ => List.replicate 64 3, fun _ => true, fun s => s⟩
        (normalizeMnemonic "a a a a a a a a a a a a") 1).address =
      (importedStore ⟨fun _ => List.replicate 64 3, fun _ => true, fun s => s⟩
        (normalizeMnemonic "a a a a a a a a a a a a") 2).address ∧
    (importedStore ⟨fun _ => List.replicate 64 3, fun _ => true, fun s => s⟩
        (normalizeMnemonic "a a a a a a a a a a a a") 1).privateKey =
      (importedStore ⟨fun _ => List.replicate 64 3, fun _ => true, fun s => s⟩
        (normalizeMnemonic "a a a a a a a a a a a a") 2).privateKey ∧
    (importedStore ⟨fun _ => List.replicate 64 3, fun _ => true, fun s => s⟩
        (normalizeMnemonic "a a a a a a a a a a a a") 1).publicKey =
      (importedStore ⟨fun _ => List.replicate 64 3, fun _ => true, fun s => s⟩
        (normalizeMnemonic "a a a a a a a a a a a a") 2).publicKey :=
  C5_import_deterministic ⟨fun _ => List.replicate 64 3, fun _ => true, fun s => s⟩
    "a a a a a a a a a a a a" 1 2
    ⟨none, none, none, none, none⟩ ⟨none, none, none, some "old", some 9⟩
    _ _ _ _ rfl rfl

/-- C10: a successful import overwrites all five stored fields with values
that do not depend on the prior store, and the envelope key it stores is the
fresh randomness — not the old key and not a function of the mnemonic — so
two imports of the same phrase with distinct randomness store distinct
envelope keys; decryption after the re-import is performed entirely under
the new envelope key (the old one is gone from the store). -/
theorem C10_import_fresh_envelope_key (libs : WalletLibs) (raw : String)
    (r1 r2 : Nat) (st1 st2 st1' st2' : VaultStore) (a1 a2 : String)
    (h1 : importWalletFromMnemonic libs raw r1 st1 = (st1', .ok a1))
    (h2 : importWalletFromMnemonic libs raw r2 st2 = (st2', .ok a2))
    (hr : r1 ≠ r2) :
    st1' = importedStore libs (normalizeMnemonic raw) r1 ∧
    st1'.envelopeKey = some r1 ∧ st2'.envelopeKey = some r2 ∧
    st1'.envelopeKey ≠ st2'.envelopeKey ∧
    ∀ aes rk blob, decryptData aes st1' rk blob =
      (st1', gcmDecrypt (aes r1) blob.iv blob.data) := by
  unfold importWalletFromMnemonic at h1 h2
  split at h1
  · simp only [Prod.mk.injEq] at h1
    exact absurd h1.2 (by simp)
  · split at h1
    · split at h2
      · simp only [Prod.mk.injEq] at h2
        exact absurd h2.2 (by simp)
      · simp only [Prod.mk.injEq] at h1 h2
        obtain ⟨hst1, _⟩ := h1
        obtain ⟨hst2, _⟩ := h2
        subst hst1; subst hst2
        refine ⟨rfl, rfl, rfl, by simp [importedStore, hr], ?_⟩
        intro aes rk blob
        unfold decryptData getEncryptionKey
        rfl
    · simp only [Prod.mk.injEq] at h1
      exact absurd h1.2 (by simp)

/-- Witness for C10: two concrete imports of the same phrase with randomness
1 and 2, plus a concrete demonstration that a blob encrypted under the old
envelope key (99) no longer decrypts after the re-import stored key 1. -/
theorem C10_import_fresh_envelope_key_witness :
    (importedStore ⟨fun _ => List.replicate 64 3, fun _ => true, fun s => s⟩
        (normalizeMnemonic "a a a a a a a a a a a a") 1 =
      importedStore ⟨fun _ => List.replicate 64 3, fun _ => true, fun s => s⟩
        (normalizeMnemonic "a a a a a a a a a a a a") 1 ∧
    (importedStore ⟨fun _ => List.replicate 64 3, fun _ => true, fun s => s⟩
        (normalizeMnemonic "a a a a a a a a a a a a") 1).envelopeKey = some 1 ∧
    (importedStore ⟨fun _ => List.replicate 64 3, fun _ => true, fun s => s⟩
        (normalizeMnemonic "a a a a a a a a a a a a") 2).envelopeKey = some 2 ∧
    (importedStore ⟨fun _ => List.replicate 64 3, fun _ => true, fun s => s⟩
        (normalizeMnemonic "a a a a a a a a a a a a") 1).envelopeKey ≠
      (importedStore ⟨fun _ => List.replicate 64 3, fun _ => true, fun s => s⟩
        (normalizeMnemonic "a a a a a a a a a a a a") 2).envelopeKey ∧
    ∀ aes rk blob, decryptData aes
        (importedStore ⟨fun _ => List.replicate 64 3, fun _ => true, fun s => s⟩
          (normalizeMnemonic "a a a a a a a a a a a a") 1) rk blob =
      (importedStore ⟨fun _ => List.replicate 64 3, fun _ => true, fun s => s⟩
          (normalizeMnemonic "a a a a a a a a a a a a") 1,
       gcmDecrypt (aes 1) blob.iv blob.data)) ∧
    (decryptData (fun k b => k + b)
        (importedStore ⟨fun _ => List.replicate 64 3, fun _ => true, fun s => s⟩
          (normalizeMnemonic "a a a a a a a a a a a a") 1) 0
        (encryptData (fun k b => k + b) ⟨none, none, none, none, some 99⟩ 0
          (List.replicate 12 2) [1, 2, 3]).2).2 = none :=
  ⟨C10_import_fresh_envelope_key
      ⟨fun _ => List.replicate 64 3, fun _ => true, fun s => s⟩
      "a a a a a a a a a a a a" 1 2
      ⟨none, none, none, none, none⟩ ⟨none, none, none, some "old", some 9⟩
      _ _ _ _ rfl rfl (by decide),
   by decide⟩

/-! ## The authentication challenge message (`WalletContext.generateAuthMessage`)

The frontend builds the message with a template literal interpolating the
wallet address and `Date.now()`; `<App>` in the specification's template
is this deployment's app name, `LifeVault`. -/

/-- `generateAuthMessage` from `WalletContext.tsx`: the exact template
literal, with the address and millisecond timestamp interpolated. -/
def generateAuthMessage (address : String) (timestampMs : Nat) : String :=
  "Sign this message to authenticate with LifeVault.\n\nWallet: " ++ address ++
  "\nTimestamp: " ++ toString timestampMs ++
  "\n\nThis signature will not trigger any blockchain transaction or cost any gas fees."

/-- Modelled from the spec: the fixed challenge template of §6, with the
`<App>`, `<address>` and `<timestampMs>` slots embedded verbatim. -/
def challengeTemplate (app address : String) (timestampMs : Nat) : String :=
  "Sign this message to authenticate with " ++ app ++ ".\n\nWallet: " ++ address ++
  "\nTimestamp: " ++ toString timestampMs ++
  "\n\nThis signature will not trigger any blockchain transaction or cost any gas fees."

/-- C7: for every address and timestamp the built challenge message is
exactly the fixed template with the address and timestamp embedded verbatim
and no other variation in the bytes. -/
theorem C7_challenge_message_template (address : String) (timestampMs : Nat) :
    generateAuthMessage address timestampMs =
      challengeTemplate "LifeVault" address timestampMs := rfl

/-! ## Chain-state reading (`AptosClient.getBalance` / `fetchUserMemories`)

The client parses node responses with `org.json`.  A JSON value is
embedded as an inductive; an HTTP response is its success flag plus the
parsed body (a body whose text does not parse as the expected JSON kind
makes the `JSONObject` / `JSONArray` constructor throw, which the
source's catch-all turns into the same fallback as a non-success
response).  `opt…` accessors follow `org.json` semantics: absent keys
and wrong kinds yield the fallback instead of throwing. -/

/-- A parsed JSON value. -/
inductive Json where
  | null
  | jbool (b : Bool)
  | jnum (n : Int)
  | jstr (s : String)
  | jarr (elems : List Json)
  | jobj (fields : List (String × Json))

/-- First binding of a key in a JSON object. -/
def lookupField : List (String × Json) → String → Option Json
  | [], _ => none
  | (k, v) :: rest, name => if k = name then some v else lookupField rest name

/-- `JSONObject.optJSONObject(name)`: the object under `name`, or null. -/
def optJSONObject (fields : List (String × Json)) (name : String) :
    Option (List (String × Json)) :=
  match lookupField fields name with
  | some (.jobj f) => some f
  | _ => none

/-- `JSONObject.optString(name, fallback)`: the value coerced to a string,
or the fallback when absent or JSON null (compound values, which cannot
occur in the schemas read here, also fall back). -/
def optString (fields : List (String × Json)) (name fallback : String) : String :=
  match lookupField fields name with
  | some (.jstr s) => s
  | some (.jnum n) => toString n
  | some (.jbool b) => if b then "true" else "false"
  | _ => fallback

/-- Digit run of a decimal literal (`none` on a non-digit). -/
def digitsToNatAux : Nat → List Char → Option Nat
  | acc, [] => some acc
  | acc, c :: rest =>
      if c.isDigit then digitsToNatAux (acc * 10 + (c.toNat - 48)) rest else none

/-- Kotlin `String.toLongOrNull()`: optional sign, decimal digits, and the
signed 64-bit range check; anything else is `none`. -/
def toLongOrNull (s : String) : Option Int :=
  let signed : Option (Bool × List Char) :=
    match s.data with
    | [] => none
    | '+' :: ds => if ds.isEmpty then none else some (false, ds)
    | '-' :: ds => if ds.isEmpty then none else some (true, ds)
    | ds => some (false, ds)
  match signed with
  | none => none
  | some (neg, ds) =>
      match digitsToNatAux 0 ds with
      | none => none
      | some n =>
          let v : Int := if neg then -(n : Int) else (n : Int)
          if -(2 ^ 63) ≤ v ∧ v < 2 ^ 63 then some v else none

/-- An HTTP response from the node: success flag and parsed body. -/
structure ChainResponse where
  ok : Bool
  body : Json

/-- `AptosClient.getBalance`: read `data.coin.value` out of the coin-store
resource response; every missing piece — non-success response, body that is
not a JSON object, missing `data` or `coin` object, unparsable `value` —
degrades to balance 0. -/
def getBalance (resp : ChainResponse) : Int :=
  if !resp.ok then 0
  else
    match resp.body with
    | .jobj fields =>
        match optJSONObject fields "data" with
        | none => 0
        | some dataFields =>
            match optJSONObject dataFields "coin" with
            | none => 0
            | some coinFields => (toLongOrNull (optString coinFields "value" "0")).getD 0
    | _ => 0

/-- C8: whenever the HTTP response is non-success, or the response carries no
coin-store payload (no `data` object, or no `coin` object inside it),
`getBalance` returns balance 0 — it is total and raises no error. -/
theorem C8_balance_absent_is_zero (resp : ChainResponse) :
    (resp.ok = false → getBalance resp = 0) ∧
    (∀ fields, resp.body = .jobj fields → optJSONObject fields "data" = none →
      getBalance resp = 0) ∧
    (∀ fields dataFields, resp.body = .jobj fields →
      optJSONObject fields "data" = some dataFields →
      optJSONObject dataFields "coin" = none →
      getBalance resp = 0) := by
  refine ⟨?_, ?_, ?_⟩
  · intro h
    unfold getBalance
    rw [h]
    rfl
  · intro fields hbody hdata
    unfold getBalance
    rw [hbody]
    cases hok : resp.ok <;> simp [hdata]
  · intro fields dataFields hbody hdata hcoin
    unfold getBalance
    rw [hbody]
    cases hok : resp.ok <;> simp [hdata, hcoin]

/-- Witness for C8: a 404 response, a success response with an empty object
body, and a success response whose `data` object lacks `coin`, all yield 0. -/
theorem C8_balance_absent_is_zero_witness :
    getBalance ⟨false, .jstr "Resource not found"⟩ = 0 ∧
    getBalance ⟨true, .jobj []⟩ = 0 ∧
    getBalance ⟨true, .jobj [("data", .jobj [("frozen", .jbool false)])]⟩ = 0 :=
  ⟨(C8_balance_absent_is_zero ⟨false, .jstr "Resource not found"⟩).1 rfl,
   (C8_balance_absent_is_zero ⟨true, .jobj []⟩).2.1 [] rfl rfl,
   (C8_balance_absent_is_zero ⟨true, .jobj [("data", .jobj [("frozen", .jbool false)])]⟩).2.2
     [("data", .jobj [("frozen", .jbool false)])] [("frozen", .jbool false)] rfl
     rfl rfl⟩

/-! ### Hex-field decoding and the memory-record fetch -/

/-- `String.startsWith("0x")`. -/
def startsWith0x (s : String) : Bool :=
  match s.data with
  | '0' :: 'x' :: _ => true
  | _ => false

/-- The value of one hex digit as accepted by Kotlin `toInt(16)` (both
cases); `none` on any other character (`NumberFormatException`). -/
def hexCharVal (c : Char) : Option Nat :=
  if '0' ≤ c ∧ c ≤ '9' then some (c.toNat - 48)
  else if 'a' ≤ c ∧ c ≤ 'f' then some (c.toNat - 87)
  else if 'A' ≤ c ∧ c ≤ 'F' then some (c.toNat - 55)
  else none

/-- The character loop of `convertHexToString`: two hex digits at a time,
`substring(i, i+2).toInt(16).toChar()` — each byte becomes the UTF-16
character with that code.  A trailing odd character is the out-of-bounds
`substring` throw; a non-digit is the `toInt` throw. -/
def hexPairsToChars : List Char → Option (List Char)
  | [] => some []
  | [_] => none
  | c1 :: c2 :: rest =>
      match hexCharVal c1, hexCharVal c2, hexPairsToChars rest with
      | some v1, some v2, some tail => some (Char.ofNat (16 * v1 + v2) :: tail)
      | _, _, _ => none

/-- `AptosClient.convertHexToString`: strip a `0x` mark (the `cleanHex`
step), then decode the digit pairs. -/
def convertHexToString (hex : String) : Option String :=
  (hexPairsToChars (if startsWith0x hex then hex.data.drop 2 else hex.data)).map String.mk

/-- The per-field step in `fetchUserMemories`:
`if (raw.startsWith("0x")) convertHexToString(raw) else raw`. -/
def decodeChainField (raw : String) : Option String :=
  if startsWith0x raw then convertHexToString raw else some raw

/-- A decoded memory record (`MemoryItem`). -/
structure MemoryItem where
  id : Int
  title : String
  date : String
  ipfsHash : String
  isSecured : Bool
deriving DecidableEq

/-- Kotlin `Long.toInt()`: keep the low 32 bits, signed. -/
def toInt32 (n : Int) : Int := (n + 2 ^ 31) % 2 ^ 32 - 2 ^ 31

/-- The record loop of `fetchUserMemories`: element `i` must be a JSON
object (`getJSONObject` throws otherwise); its `title` and `ipfs_hash`
fields are hex-decoded when `0x`-prefixed and passed through unchanged
otherwise; the local id is `(System.currentTimeMillis() + i).toInt()`.
`none` is any thrown decode error (caught by the caller). -/
def parseItems (l : List Json) (nowMs : Int) (i : Nat) : Option (List MemoryItem) :=
  match l with
  | [] => some []
  | .jobj fields :: rest =>
      match decodeChainField (optString fields "title" "Secured Memory"),
            decodeChainField (optString fields "ipfs_hash" "") with
      | some title, some hash =>
          (parseItems rest nowMs (i + 1)).map
            (fun tail => ⟨toInt32 (nowMs + i), title, "On-Chain", hash, true⟩ :: tail)
      | _, _ => none
  | _ :: _ => none

/-- `AptosClient.fetchUserMemories`: a non-success response, a body that is
not a JSON array, an empty outer array, a first element that is not an
array, or any decoding throw, all degrade to the empty list; otherwise the
inner array's records are decoded. -/
def fetchUserMemories (resp : ChainResponse) (nowMs : Int) : List MemoryItem :=
  if !resp.ok then []
  else
    match resp.body with
    | .jarr outer =>
        match outer with
        | [] => []
        | .jarr inner :: _ => (parseItems inner nowMs 0).getD []
        | _ :: _ => []
    | _ => []

/-- C9: on a success response, `fetchUserMemories` returns the empty list —
raising no error — whenever the view result is an empty outer array, or its
first element (the inner array) is absent or empty; in particular on `[[]]`. -/
theorem C9_fetch_memories_empty (resp : ChainResponse) (nowMs : Int) :
    (resp.body = .jarr [] → fetchUserMemories resp nowMs = []) ∧
    (∀ rest, resp.body = .jarr (.jarr [] :: rest) → fetchUserMemories resp nowMs = []) ∧
    (∀ x rest, resp.body = .jarr (x :: rest) → (∀ l, x ≠ .jarr l) →
      fetchUserMemories resp nowMs = []) := by
  refine ⟨?_, ?_, ?_⟩
  · intro hbody
    unfold fetchUserMemories
    rw [hbody]
    cases resp.ok <;> rfl
  · intro rest hbody
    unfold fetchUserMemories
    rw [hbody]
    cases resp.ok <;> rfl
  · intro x rest hbody hx
    unfold fetchUserMemories
    rw [hbody]
    cases resp.ok
    · rfl
    · cases x with
      | jarr l => exact absurd rfl (hx l)
      | null => rfl
      | jbool b => rfl
      | jnum n => rfl
      | jstr s => rfl
      | jobj f => rfl

/-- Witness for C9: the view result `[[]]` (and an empty outer array, and a
non-array first element) give the empty list. -/
theorem C9_fetch_memories_empty_witness :
    fetchUserMemories ⟨true, .jarr [.jarr []]⟩ 1700000000000 = [] ∧
    fetchUserMemories ⟨true, .jarr []⟩ 1700000000000 = [] ∧
    fetchUserMemories ⟨true, .jarr [.jstr "0x74657374"]⟩ 1700000000000 = [] :=
  ⟨(C9_fetch_memories_empty ⟨true, .jarr [.jarr []]⟩ 1700000000000).2.1 [] rfl,
   (C9_fetch_memories_empty ⟨true, .jarr []⟩ 1700000000000).1 rfl,
   (C9_fetch_memories_empty ⟨true, .jarr [.jstr "0x74657374"]⟩ 1700000000000).2.2
     (.jstr "0x74657374") [] rfl (fun _ h => Json.noConfusion h)⟩

/-! ### What the specification claims the hex decode does (C4)

The spec says the byte sequence obtained from the hex pairs is
"interpreted as UTF-8".  The source instead maps each byte to the UTF-16
character with the same code (`toInt(16).toChar()`), which agrees with
UTF-8 only on ASCII bytes.  Both readings are defined below and compared. -/

/-- One hex pair to one byte (the spec's "converting each pair to one byte"). -/
def hexPairsToBytes : List Char → Option (List Nat)
  | [] => some []
  | [_] => none
  | c1 :: c2 :: rest =>
      match hexCharVal c1, hexCharVal c2, hexPairsToBytes rest with
      | some v1, some v2, some tail => some ((16 * v1 + v2) :: tail)
      | _, _, _ => none

/-- Standard UTF-8 decoding of a byte sequence (1- to 4-byte forms, with
continuation, overlong, surrogate and range checks). -/
def utf8Decode : List Nat → Option (List Char)
  | [] => some []
  | b :: rest =>
    if b < 0x80 then (utf8Decode rest).map (fun cs => Char.ofNat b :: cs)
    else if b < 0xC2 then none
    else if b < 0xE0 then
      match rest with
      | c1 :: rest1 =>
          if 0x80 ≤ c1 ∧ c1 < 0xC0 then
            (utf8Decode rest1).map (fun cs => Char.ofNat ((b - 0xC0) * 64 + (c1 - 0x80)) :: cs)
          else none
      | [] => none
    else if b < 0xF0 then
      match rest with
      | c1 :: c2 :: rest2 =>
          if (0x80 ≤ c1 ∧ c1 < 0xC0) ∧ (0x80 ≤ c2 ∧ c2 < 0xC0) then
            if 0x800 ≤ (b - 0xE0) * 4096 + (c1 - 0x80) * 64 + (c2 - 0x80) ∧
               ((b - 0xE0) * 4096 + (c1 - 0x80) * 64 + (c2 - 0x80) < 0xD800 ∨
                0xE000 ≤ (b - 0xE0) * 4096 + (c1 - 0x80) * 64 + (c2 - 0x80)) then
              (utf8Decode rest2).map
                (fun cs => Char.ofNat ((b - 0xE0) * 4096 + (c1 - 0x80) * 64 + (c2 - 0x80)) :: cs)
            else none
          else none
      | _ => none
    else if b < 0xF5 then
      match rest with
      | c1 :: c2 :: c3 :: rest3 =>
          if (0x80 ≤ c1 ∧ c1 < 0xC0) ∧ (0x80 ≤ c2 ∧ c2 < 0xC0) ∧ (0x80 ≤ c3 ∧ c3 < 0xC0) then
            if 0x10000 ≤ (b - 0xF0) * 262144 + (c1 - 0x80) * 4096 + (c2 - 0x80) * 64 + (c3 - 0x80) ∧
               (b - 0xF0) * 262144 + (c1 - 0x80) * 4096 + (c2 - 0x80) * 64 + (c3 - 0x80) < 0x110000 then
              (utf8Decode rest3).map
                (fun cs => Char.ofNat
                  ((b - 0xF0) * 262144 + (c1 - 0x80) * 4096 + (c2 - 0x80) * 64 + (c3 - 0x80)) :: cs)
            else none
          else none
      | _ => none
    else none

/-- Modelled from the spec (C4): consume two hex characters at a time,
convert each pair to one byte, and interpret the byte sequence as UTF-8;
fields not `0x`-prefixed pass through unchanged. -/
def specClaimedDecode (raw : String) : Option String :=
  if startsWith0x raw then
    (hexPairsToBytes (raw.data.drop 2)).bind (fun bs => (utf8Decode bs).map String.mk)
  else some raw

/-- Modelled from the amended claim (C4): convert each hex pair to one byte
and map each byte to the character with that code point (ISO-8859-1 style),
which agrees with UTF-8 only on ASCII bytes. -/
def specAmendedDecode (raw : String) : Option String :=
  if startsWith0x raw then
    (hexPairsToBytes (raw.data.drop 2)).map (fun bs => String.mk (bs.map Char.ofNat))
  else some raw

/-- Counterexample for C4: the UTF-8 bytes of `"é"` are `c3 a9`, so under
the claim `"0xc3a9"` must decode to `"é"`; the code instead produces the
two-character string `"Ã©"` (one character per byte). -/
theorem C4_hex_decode_counterexample :
    decodeChainField "0xc3a9" = some "Ã©" ∧
    specClaimedDecode "0xc3a9" = some "é" ∧
    decodeChainField "0xc3a9" ≠ specClaimedDecode "0xc3a9" := by
  refine ⟨by decide, ?_, ?_⟩
  · show (hexPairsToBytes ("0xc3a9".data.drop 2)).bind
        (fun bs => (utf8Decode bs).map String.mk) = some "é"
    have h1 : hexPairsToBytes ("0xc3a9".data.drop 2) = some [0xC3, 0xA9] := by decide
    rw [h1]
    show (utf8Decode [0xC3, 0xA9]).map String.mk = some "é"
    have h2 : utf8Decode [0xC3, 0xA9] = some ['é'] := by decide
    rw [h2]
    rfl
  · intro h
    rw [show decodeChainField "0xc3a9" = some "Ã©" from by decide] at h
    have h2 : specClaimedDecode "0xc3a9" = some "é" := by
      show (hexPairsToBytes ("0xc3a9".data.drop 2)).bind
          (fun bs => (utf8Decode bs).map String.mk) = some "é"
      have h1 : hexPairsToBytes ("0xc3a9".data.drop 2) = some [0xC3, 0xA9] := by decide
      rw [h1]
      show (utf8Decode [0xC3, 0xA9]).map String.mk = some "é"
      have h3 : utf8Decode [0xC3, 0xA9] = some ['é'] := by decide
      rw [h3]
      rfl
    rw [h2] at h
    exact absurd (Option.some.inj h) (by decide)

theorem hexPairsToChars_eq_bytes (l : List Char) :
    hexPairsToChars l = (hexPairsToBytes l).map (List.map Char.ofNat) := by
  have H : ∀ n l, List.length l ≤ n →
      hexPairsToChars l = (hexPairsToBytes l).map (List.map Char.ofNat) := by
    intro n
    induction n with
    | zero =>
        intro l hl
        cases l with
        | nil => rfl
        | cons c rest => simp at hl
    | succ n ih =>
        intro l hl
        match l with
        | [] => rfl
        | [c] => rfl
        | c1 :: c2 :: rest =>
            have hr : rest.length ≤ n := by
              simp only [List.length_cons] at hl; omega
            unfold hexPairsToChars hexPairsToBytes
            rw [ih rest hr]
            cases h1 : hexCharVal c1 <;> cases h2 : hexCharVal c2 <;>
              cases h3 : hexPairsToBytes rest <;> simp
  exact H l.length l le_rfl

/-- C4 (amended): every chain text field is decoded by consuming two hex
characters at a time, converting each pair to one byte, and mapping each
byte to the character with that code point (agreeing with UTF-8 only on
ASCII); non-`0x` fields pass through unchanged; the ASCII examples hold. -/
theorem C4_hex_decode_amended :
    (∀ raw, decodeChainField raw = specAmendedDecode raw) ∧
    decodeChainField "0x74657374" = some "test" ∧
    decodeChainField "0x48656c6c6f" = some "Hello" := by
  refine ⟨?_, by decide, by decide⟩
  intro raw
  unfold decodeChainField specAmendedDecode convertHexToString
  by_cases h : startsWith0x raw = true
  · rw [if_pos h, if_pos h, if_pos h]
    rw [hexPairsToChars_eq_bytes]
    cases hexPairsToBytes (raw.data.drop 2) <;> rfl
  · rw [if_neg h, if_neg h]

end MemoryVault
